import Mathlib

/-!
Shallow embedding of the MindFriend bot core (src/main.py).

The SQLite tables (`users`, `chat_history`, `moods`) are modelled as
in-memory lists of rows held in a `DB` record, together with the
auto-increment counters and a clock supplying `datetime.datetime.now()`.
The per-user in-memory chat histories (`user_histories` plus
`get_user_history`) are modelled as a registry with an explicit heap so
that Python reference semantics (the dict stores object references) are
captured: `get_user_history` returns a heap address, and reading or
appending through an address reaches the single shared object.

Timestamps: the code stores `datetime.now().isoformat()` TEXT and parses
it back with `datetime.fromisoformat`.  A well-formed ISO string is
modelled by the instant it denotes (`TsText.iso t`, `t` an abstract time
unit); ISO strings produced by `isoformat` compare lexicographically in
chronological order, so SQL `MIN`/`MAX` over the TEXT column is modelled
by the numeric order on instants.  `TsText.malformed k` models a
non-empty stored string that `fromisoformat` rejects with a
`ValueError`; its bytes may sort lexicographically below, between or
above the well-formed stamps, so its placement is data, carried by the
rank `k` (see `tsKey`), not a fixed modelling choice.
-/

/-- The `timestamp` TEXT column, modelled by its parse semantics plus
lexicographic placement: `iso t` is a well-formed string denoting
instant `t`; `malformed k` is a string `fromisoformat` rejects, whose
bytes sort at rank `k` on the `tsKey` scale. -/
inductive TsText where
  | iso (t : Nat)
  | malformed (k : Nat)
deriving DecidableEq

/-- `datetime.datetime.fromisoformat`: returns the denoted instant, or
fails (Python raises `ValueError`) on a malformed string. -/
def fromisoformat : TsText → Except Unit Nat
  | TsText.iso t => Except.ok t
  | TsText.malformed _ => Except.error ()

/-- Lexicographic sort key of a stored timestamp TEXT.  Well-formed
stamps sit at the odd ranks `2 * t + 1`, in chronological order, which
matches the lexicographic order of canonical `isoformat` strings; a
malformed string carries its own rank `k` — `0` sorts below every
stamp, `2 * t + 2` strictly between the stamps of instants `t` and
`t + 1`, larger ranks above.  (Distinct TEXT values never tie
lexicographically; equal ranks are representable but no theorem relies
on a tie, and every theorem below about mixed stores holds for all rank
assignments.) -/
def tsKey : TsText → Nat
  | TsText.iso t => 2 * t + 1
  | TsText.malformed k => k

/-- Order used to model SQL `MIN`/`MAX` (BINARY collation, i.e.
lexicographic) over the timestamp TEXT column. -/
def tsLe (a b : TsText) : Bool :=
  tsKey a ≤ tsKey b

/-- Whether a stored timestamp TEXT would make `fromisoformat` raise. -/
def isMalformedTs : TsText → Bool
  | TsText.iso _ => false
  | TsText.malformed _ => true

/-- SQL `SELECT MIN(timestamp)`: `none` is the SQL NULL produced on an
empty row set. -/
def minTs : List TsText → Option TsText
  | [] => none
  | t :: ts => some (ts.foldl (fun acc x => if tsLe x acc then x else acc) t)

/-- SQL `SELECT MAX(timestamp)`: `none` is the SQL NULL produced on an
empty row set. -/
def maxTs : List TsText → Option TsText
  | [] => none
  | t :: ts => some (ts.foldl (fun acc x => if tsLe acc x then x else acc) t)

/-- One row of the `users` table (src/main.py, `init_db`). -/
structure UserRow where
  user_id : Int
  username : Option String
  first_name : Option String
  last_name : Option String
deriving DecidableEq

/-- One row of the `chat_history` table. -/
structure ChatRow where
  id : Nat
  user_id : Int
  message : String
  response : String
  timestamp : TsText
deriving DecidableEq

/-- One row of the `moods` table. -/
structure MoodRow where
  id : Nat
  user_id : Int
  mood : String
  timestamp : TsText
deriving DecidableEq

/-- The SQLite database of `init_db`, plus the clock read by
`datetime.datetime.now()` at each write. -/
structure DB where
  users : List UserRow
  chat_history : List ChatRow
  moods : List MoodRow
  next_chat_id : Nat
  next_mood_id : Nat
  clock : Nat
deriving DecidableEq

/-- The freshly initialised database (`init_db`): empty tables,
AUTOINCREMENT counters at 1. -/
def DB.init : DB :=
  { users := [], chat_history := [], moods := [], next_chat_id := 1,
    next_mood_id := 1, clock := 0 }

/-- Environment action: real time passing between operations.  Not part
of the source; it only moves the clock that `datetime.now()` reads. -/
def setClock (db : DB) (t : Nat) : DB :=
  { db with clock := t }

/-- `save_user` (src/main.py:89): `INSERT OR IGNORE INTO users`; a row
whose primary key already exists is ignored, so attributes are never
updated. -/
def save_user (db : DB) (u : UserRow) : DB :=
  if db.users.any (fun r => r.user_id == u.user_id) then db
  else { db with users := db.users ++ [u] }

/-- `save_chat` (src/main.py:107): `INSERT INTO chat_history`, the
timestamp being `datetime.datetime.now().isoformat()` taken inside the
operation. -/
def save_chat (db : DB) (user_id : Int) (message response : String) : DB :=
  { db with
    chat_history := db.chat_history ++
      [{ id := db.next_chat_id, user_id := user_id, message := message,
         response := response, timestamp := TsText.iso db.clock }],
    next_chat_id := db.next_chat_id + 1 }

/-- `save_mood` (src/main.py:125): `INSERT INTO moods`, the timestamp
being `datetime.datetime.now().isoformat()` taken inside the operation. -/
def save_mood (db : DB) (user_id : Int) (mood : String) : DB :=
  { db with
    moods := db.moods ++
      [{ id := db.next_mood_id, user_id := user_id, mood := mood,
         timestamp := TsText.iso db.clock }],
    next_mood_id := db.next_mood_id + 1 }

/-- `ORDER BY id DESC`, as an explicit sort on the `id` column. -/
def sortByIdDesc {α : Type} (key : α → Nat) (l : List α) : List α :=
  @List.insertionSort α (fun a b => key b ≤ key a)
    (fun a b => Nat.decLe (key b) (key a)) l

/-- `get_last_chats` (src/main.py:142): `SELECT message, response,
timestamp FROM chat_history WHERE user_id=? ORDER BY id DESC LIMIT ?`,
then `rows[::-1]` to present oldest first. -/
def get_last_chats (db : DB) (user_id : Int) (limit : Nat) :
    List (String × String × TsText) :=
  let rows :=
    ((sortByIdDesc (fun r => r.id)
        (db.chat_history.filter (fun r => r.user_id == user_id))).take limit).map
      (fun r => (r.message, r.response, r.timestamp))
  rows.reverse

/-- `get_last_chats` at its Python default argument `limit=5`. -/
def get_last_chats_default (db : DB) (user_id : Int) :
    List (String × String × TsText) :=
  get_last_chats db user_id 5

/-- `get_user_stats` (src/main.py:161).  `COUNT(*)`, then `MIN`/`MAX`
of the timestamp column; both non-NULL (any rows) leads to
`fromisoformat` on each — a malformed string raises `ValueError`, which
the surrounding `except sqlite3.Error` does NOT catch, modelled as
`Except.error`.  `days_active = max((d2 - d1).days + 1, 1)` with
`timedelta.days` flooring, and `avg = total / days if days > 0 else 0.0`. -/
def get_user_stats (db : DB) (user_id : Int) : Except Unit (Nat × Int × Rat) :=
  let rows := db.chat_history.filter (fun r => r.user_id == user_id)
  let total_msgs := rows.length
  match minTs (rows.map (fun r => r.timestamp)),
        maxTs (rows.map (fun r => r.timestamp)) with
  | some m, some M =>
      match fromisoformat m, fromisoformat M with
      | Except.ok d1, Except.ok d2 =>
          let days_active : Int := max (Int.fdiv ((d2 : Int) - (d1 : Int)) 86400 + 1) 1
          let avg : Rat :=
            if days_active > 0 then (total_msgs : Rat) / (days_active : Rat) else 0
          Except.ok (total_msgs, days_active, avg)
      | _, _ => Except.error ()
  | _, _ => Except.ok (total_msgs, 0, 0)

/-- `get_mood_stats` (src/main.py:190): `GROUP BY mood` with counts
(grouping is on the exact TEXT value; output listed here in first-
occurrence order, which no consumer relies on), and the last five mood
rows by `id DESC` reversed to oldest first. -/
def get_mood_stats (db : DB) (user_id : Int) :
    List (String × Nat) × List (String × TsText) :=
  let rows := db.moods.filter (fun r => r.user_id == user_id)
  let labels := rows.map (fun r => r.mood)
  let mood_counts := labels.dedup.map (fun m => (m, labels.count m))
  let recent :=
    ((sortByIdDesc (fun r => r.id) rows).take 5).map (fun r => (r.mood, r.timestamp))
  (mood_counts, recent.reverse)

/-- The module-level `user_histories` dict plus the heap of
`ChatMessageHistory` objects it references.  `table` maps a user id to a
heap address; `heap` maps addresses (list indices) to the history
contents, a list of (user message, ai message) turns. -/
structure Registry where
  table : List (Int × Nat)
  heap : List (List (String × String))
deriving DecidableEq

/-- The registry at process start: `user_histories = {}`. -/
def emptyRegistry : Registry := { table := [], heap := [] }

/-- `get_user_history` (src/main.py:27): create an empty
`ChatMessageHistory` on first reference, then return the stored object
(here: its heap address, so that repeated calls returning the same
address model reference equality). -/
def get_user_history (r : Registry) (user_id : Int) : Registry × Nat :=
  match r.table.lookup user_id with
  | some addr => (r, addr)
  | none =>
      ({ table := (user_id, r.heap.length) :: r.table, heap := r.heap ++ [[]] },
       r.heap.length)

/-- Dereference a history object: the turns currently stored at a heap
address. -/
def readHist (r : Registry) (addr : Nat) : List (String × String) :=
  r.heap.getD addr []

/-- Mutate a history object in place: append one (input, reply) turn to
the object at `addr` (what the generation wrapper does on a successful
call). -/
def appendHist (r : Registry) (addr : Nat) (turn : String × String) : Registry :=
  { r with heap := r.heap.set addr (r.heap.getD addr [] ++ [turn]) }

/-- The conversation context currently associated with a user: the turns
of the history object its registry entry references, `[]` when the user
has no entry yet. -/
def contextOf (r : Registry) (user_id : Int) : List (String × String) :=
  match r.table.lookup user_id with
  | some addr => readHist r addr
  | none => []

/-- Whole-process state: the database plus the in-memory registry. -/
structure AppState where
  db : DB
  reg : Registry
deriving DecidableEq

/-- An apostrophe character (several user-facing strings contain one). -/
def apos : String := Char.toString (Char.ofNat 39)

/-- The fixed fallback reply of `handle_message`
(src/main.py:330). -/
def FALLBACK : String :=
  "I" ++ apos ++ "m sorry, I couldn" ++ apos ++
    "t process that right now. Please try again later."

/-- Reply of the `/mood` handler when no argument was given. -/
def MOOD_USAGE : String :=
  "Please provide your mood after the command, e.g., /mood happy"

/-- Reply of the `/mood` handler when the joined argument strips to the
empty string. -/
def MOOD_EMPTY : String :=
  "It seems you didn" ++ apos ++
    "t provide a mood. Please specify your mood after the command, e.g., /mood happy"

/-- Confirmation reply of the `/mood` handler. -/
def MOOD_CONFIRM (v : String) : String :=
  "Mood " ++ apos ++ v ++ apos ++ " recorded. Thank you for sharing!"

/-- The `/mood` handler (src/main.py:259): `save_user`, then branch on
`context.args` (falsy when empty) and on the stripped joined text. -/
def mood_cmd (db : DB) (u : UserRow) (args : List String) : DB × String :=
  let db1 := save_user db u
  if args = [] then (db1, MOOD_USAGE)
  else
    let mood_value := (String.intercalate " " args).trim
    if mood_value = "" then (db1, MOOD_EMPTY)
    else (save_mood db1 u.user_id mood_value, MOOD_CONFIRM mood_value)

/-- `handle_message` (src/main.py:306).  The external generation call
(`conversation.invoke`, a `RunnableWithMessageHistory` wrapping the LLM
with `get_user_history` as the session-history callback) is a parameter:
`Except.ok content` is a successful call, whose wrapper records the
exchange in the session history object before returning; `Except.error`
is a raised exception, caught by the handler, which substitutes the
fixed fallback text — the history-recording callback of a failed call
never ran, so the history object is left as it was.  Either way the
turn is then written to `chat_history` via `save_chat`. -/
def handle_message (st : AppState) (u : UserRow) (text : String)
    (gen : Except Unit String) : AppState × String :=
  let db1 := save_user st.db u
  let gh := get_user_history st.reg u.user_id
  match gen with
  | Except.ok content =>
      ({ db := save_chat db1 u.user_id text content,
         reg := appendHist gh.1 gh.2 (text, content) }, content)
  | Except.error _ =>
      ({ db := save_chat db1 u.user_id text FALLBACK, reg := gh.1 }, FALLBACK)

/-- Well-formedness of the database: row ids strictly increase along
each table in insertion order and stay below the AUTOINCREMENT counter.
`init_db` establishes it and every write operation preserves it. -/
abbrev DBInv (db : DB) : Prop :=
  List.Pairwise (fun a b => a.id < b.id) db.chat_history ∧
    (∀ r ∈ db.chat_history, r.id < db.next_chat_id) ∧
    List.Pairwise (fun a b => a.id < b.id) db.moods ∧
    (∀ r ∈ db.moods, r.id < db.next_mood_id)

/-- Well-formedness of the registry: every table entry references a live
heap address. -/
abbrev RegInv (r : Registry) : Prop :=
  ∀ p ∈ r.table, p.2 < r.heap.length

/-! ## Helper lemmas -/

theorem save_user_moods (db : DB) (u : UserRow) : (save_user db u).moods = db.moods := by
  unfold save_user; split <;> rfl

theorem save_user_next_mood_id (db : DB) (u : UserRow) :
    (save_user db u).next_mood_id = db.next_mood_id := by
  unfold save_user; split <;> rfl

theorem save_user_clock (db : DB) (u : UserRow) : (save_user db u).clock = db.clock := by
  unfold save_user; split <;> rfl

theorem save_user_chat_history (db : DB) (u : UserRow) :
    (save_user db u).chat_history = db.chat_history := by
  unfold save_user; split <;> rfl

theorem save_user_next_chat_id (db : DB) (u : UserRow) :
    (save_user db u).next_chat_id = db.next_chat_id := by
  unfold save_user; split <;> rfl

/-! ## C5 -/

/-- C5: `save_user` is idempotent with first-write-wins semantics: a
second call with the same user identifier — even with different display
attributes — leaves the database exactly as the first call did, so no
duplicate row is created and no stored attribute is overwritten. -/
theorem C5_save_user_idempotent (db : DB) (u u' : UserRow)
    (h : u'.user_id = u.user_id) :
    save_user (save_user db u) u' = save_user db u := by
  unfold save_user
  by_cases hmem : db.users.any (fun r => r.user_id == u.user_id)
  · simp [hmem, h]
  · simp [hmem, h]

/-- Witness for C5 at a concrete input: re-inserting user 1 with a
different username changes nothing. -/
theorem C5_witness :
    save_user (save_user DB.init ⟨1, some "ann", none, none⟩)
      ⟨1, some "bob", none, none⟩ =
    save_user DB.init ⟨1, some "ann", none, none⟩ :=
  C5_save_user_idempotent DB.init ⟨1, some "ann", none, none⟩
    ⟨1, some "bob", none, none⟩ rfl

/-! ## C10 -/

/-- C10: the timestamp stored with a chat turn and with a mood entry is
generated inside the write operation itself, from the clock at write
time; it does not depend on any caller-supplied argument (the writes
take no timestamp parameter), so callers cannot influence it. -/
theorem C10_timestamp_generated_at_write (db : DB) (uid uid' : Int)
    (m r l : String) :
    ((save_chat db uid m r).chat_history.getLast?).map (fun row => row.timestamp) =
        some (TsText.iso db.clock) ∧
    ((save_mood db uid' l).moods.getLast?).map (fun row => row.timestamp) =
        some (TsText.iso db.clock) := by
  constructor <;> simp [save_chat, save_mood]

/-! ## C9 -/

/-- C9: the `/mood` handler records nothing when the supplied mood text
is empty after trimming (no argument at all, or arguments that join and
strip to the empty string) and answers with a guidance message; a
non-empty trimmed mood is recorded as one mood row and acknowledged
with the confirmation message. -/
theorem C9_mood_validation (db : DB) (u : UserRow) (args : List String) :
    (mood_cmd db u args).1.moods =
      (if args = [] ∨ (String.intercalate " " args).trim = "" then db.moods
       else db.moods ++
         [{ id := db.next_mood_id, user_id := u.user_id,
            mood := (String.intercalate " " args).trim,
            timestamp := TsText.iso db.clock }]) ∧
    (mood_cmd db u args).2 =
      (if args = [] then MOOD_USAGE
       else if (String.intercalate " " args).trim = "" then MOOD_EMPTY
       else MOOD_CONFIRM ((String.intercalate " " args).trim)) := by
  unfold mood_cmd
  by_cases h1 : args = [] <;>
    by_cases h2 : (String.intercalate " " args).trim = "" <;>
      simp [h1, h2, save_mood, save_user_moods, save_user_next_mood_id, save_user_clock]

/-! ## Sorting by id: on well-formed tables `ORDER BY id DESC` is the
reverse of insertion order -/

theorem orderedInsert_bottom {α : Type} (key : α → Nat) (a : α) (l : List α)
    (h : ∀ x ∈ l, key a < key x) :
    @List.orderedInsert α (fun x y => key y ≤ key x)
      (fun x y => Nat.decLe (key y) (key x)) a l = l ++ [a] := by
  induction l with
  | nil => rfl
  | cons b t ih =>
      have hb : ¬ (key b ≤ key a) := by
        have := h b (by simp)
        omega
      simp only [List.orderedInsert, if_neg hb, List.cons_append]
      exact congrArg (b :: ·) (ih (fun x hx => h x (by simp [hx])))

theorem sortByIdDesc_pairwise {α : Type} (key : α → Nat) (l : List α)
    (h : List.Pairwise (fun a b => key a < key b) l) :
    sortByIdDesc key l = l.reverse := by
  induction l with
  | nil => rfl
  | cons a t ih =>
      have ha := (List.pairwise_cons.mp h).1
      have ht := (List.pairwise_cons.mp h).2
      show @List.orderedInsert α (fun x y => key y ≤ key x)
          (fun x y => Nat.decLe (key y) (key x)) a (sortByIdDesc key t) = _
      rw [ih ht, orderedInsert_bottom key a t.reverse
        (fun x hx => ha x (List.mem_reverse.mp hx)), List.reverse_cons]

theorem DBInv_init : DBInv DB.init := by
  refine ⟨?_, ?_, ?_, ?_⟩ <;> simp [DB.init]

theorem save_chat_inv (db : DB) (uid : Int) (m r : String) (h : DBInv db) :
    DBInv (save_chat db uid m r) := by
  obtain ⟨h1, h2, h3, h4⟩ := h
  refine ⟨?_, ?_, ?_, ?_⟩
  · simp only [save_chat, List.pairwise_append]
    exact ⟨h1, by simp, by intro a ha b hb; simp at hb; subst hb; exact h2 a ha⟩
  · intro rr hrr
    simp only [save_chat, List.mem_append, List.mem_singleton] at hrr
    rcases hrr with hrr | hrr
    · have := h2 rr hrr; simp [save_chat]; omega
    · subst hrr; simp [save_chat]
  · simpa [save_chat] using h3
  · simpa [save_chat] using h4

theorem save_mood_inv (db : DB) (uid : Int) (l : String) (h : DBInv db) :
    DBInv (save_mood db uid l) := by
  obtain ⟨h1, h2, h3, h4⟩ := h
  refine ⟨?_, ?_, ?_, ?_⟩
  · simpa [save_mood] using h1
  · simpa [save_mood] using h2
  · simp only [save_mood, List.pairwise_append]
    exact ⟨h3, by simp, by intro a ha b hb; simp at hb; subst hb; exact h4 a ha⟩
  · intro rr hrr
    simp only [save_mood, List.mem_append, List.mem_singleton] at hrr
    rcases hrr with hrr | hrr
    · have := h4 rr hrr; simp [save_mood]; omega
    · subst hrr; simp [save_mood]

theorem setClock_inv (db : DB) (t : Nat) (h : DBInv db) : DBInv (setClock db t) := by
  obtain ⟨h1, h2, h3, h4⟩ := h
  exact ⟨by simpa [setClock] using h1, by simpa [setClock] using h2,
    by simpa [setClock] using h3, by simpa [setClock] using h4⟩

/-- On a well-formed database, `get_last_chats` returns the projections
of the last `limit` matching rows in insertion order. -/
theorem get_last_chats_eq (db : DB) (uid : Int) (limit : Nat) (hInv : DBInv db) :
    get_last_chats db uid limit =
      (((db.chat_history.filter (fun r => r.user_id == uid)).reverse.take limit).map
        (fun r => (r.message, r.response, r.timestamp))).reverse := by
  unfold get_last_chats
  rw [sortByIdDesc_pairwise (fun r => r.id)
    (db.chat_history.filter (fun r => r.user_id == uid))
    (List.Pairwise.sublist (List.filter_sublist _) hInv.1)]

/-! ## C3 -/

/-- C3: with no prior turns for the user, `get_last_chats` at its
default limit 5 returns an empty sequence (not an error); and after
inserting turns T1..T7 in that order it returns exactly [T3,T4,T5,T6,T7]
oldest first — the most recent 5 rows by insertion order descending,
reversed for presentation. -/
theorem C3_last_chats_window (db : DB) (uid : Int)
    (m1 r1 m2 r2 m3 r3 m4 r4 m5 r5 m6 r6 m7 r7 : String)
    (hInv : DBInv db)
    (hEmpty : db.chat_history.filter (fun r => r.user_id == uid) = []) :
    get_last_chats_default db uid = [] ∧
    get_last_chats_default
        (save_chat (save_chat (save_chat (save_chat (save_chat (save_chat
          (save_chat db uid m1 r1) uid m2 r2) uid m3 r3) uid m4 r4)
            uid m5 r5) uid m6 r6) uid m7 r7) uid =
      [(m3, r3, TsText.iso db.clock), (m4, r4, TsText.iso db.clock),
       (m5, r5, TsText.iso db.clock), (m6, r6, TsText.iso db.clock),
       (m7, r7, TsText.iso db.clock)] := by
  have hInv7 : DBInv (save_chat (save_chat (save_chat (save_chat (save_chat
      (save_chat (save_chat db uid m1 r1) uid m2 r2) uid m3 r3) uid m4 r4)
        uid m5 r5) uid m6 r6) uid m7 r7) := by
    exact save_chat_inv _ _ _ _ (save_chat_inv _ _ _ _ (save_chat_inv _ _ _ _
      (save_chat_inv _ _ _ _ (save_chat_inv _ _ _ _ (save_chat_inv _ _ _ _
        (save_chat_inv _ _ _ _ hInv))))))
  constructor
  · rw [get_last_chats_default, get_last_chats_eq db uid 5 hInv, hEmpty]
    rfl
  · rw [get_last_chats_default, get_last_chats_eq _ uid 5 hInv7]
    simp [save_chat, List.filter_append, hEmpty]

/-- Witness for C3: turns T1..T7 inserted for user 1 into a fresh
database; the default-limit query returns T3..T7 oldest first. -/
theorem C3_witness :
    get_last_chats_default DB.init 1 = [] ∧
    get_last_chats_default
        (save_chat (save_chat (save_chat (save_chat (save_chat (save_chat
          (save_chat DB.init 1 "u1" "b1") 1 "u2" "b2") 1 "u3" "b3") 1 "u4" "b4")
            1 "u5" "b5") 1 "u6" "b6") 1 "u7" "b7") 1 =
      [("u3", "b3", TsText.iso 0), ("u4", "b4", TsText.iso 0),
       ("u5", "b5", TsText.iso 0), ("u6", "b6", TsText.iso 0),
       ("u7", "b7", TsText.iso 0)] :=
  C3_last_chats_window DB.init 1 "u1" "b1" "u2" "b2" "u3" "b3" "u4" "b4"
    "u5" "b5" "u6" "b6" "u7" "b7" DBInv_init rfl

/-! ## C8 -/

/-- C8: round-trip — a (message, response, timestamp) triple written by
`save_chat` is returned unmodified by `get_last_chats`, in its insertion
position (appended after the previously retrievable turns), whenever the
limit is at least the total number of turns of that user. -/
theorem C8_round_trip (db : DB) (uid : Int) (m r : String) (limit : Nat)
    (hInv : DBInv db)
    (hLimit : (db.chat_history.filter (fun row => row.user_id == uid)).length + 1 ≤ limit) :
    get_last_chats (save_chat db uid m r) uid limit =
      get_last_chats db uid limit ++ [(m, r, TsText.iso db.clock)] := by
  rw [get_last_chats_eq _ uid limit (save_chat_inv db uid m r hInv),
    get_last_chats_eq db uid limit hInv]
  obtain ⟨k, rfl⟩ : ∃ k, limit = k + 1 := ⟨limit - 1, by omega⟩
  have hlen : (db.chat_history.filter (fun row => row.user_id == uid)).length ≤ k := by
    omega
  simp only [save_chat, List.filter_append, List.filter_cons, List.filter_nil,
    beq_self_eq_true, ite_true, List.reverse_append, List.reverse_cons,
    List.reverse_nil, List.nil_append, List.singleton_append]
  rw [List.take_succ_cons, List.take_of_length_le (by simpa using hlen),
    List.take_of_length_le (by simpa using Nat.le_succ_of_le hlen)]
  simp

/-- Witness for C8: after two turns for user 1, writing a third with
limit 5 appends it to the previously retrievable sequence. -/
theorem C8_witness :
    get_last_chats (save_chat (save_chat (save_chat DB.init 1 "a" "x") 1 "b" "y") 1 "c" "z") 1 5 =
      get_last_chats (save_chat (save_chat DB.init 1 "a" "x") 1 "b" "y") 1 5 ++
        [("c", "z", TsText.iso 0)] :=
  C8_round_trip (save_chat (save_chat DB.init 1 "a" "x") 1 "b" "y") 1 "c" "z" 5
    (save_chat_inv _ _ _ _ (save_chat_inv _ _ _ _ DBInv_init)) (by decide)

/-! ## Timestamp aggregation lemmas -/

theorem tsFoldMin_mem (t : TsText) (ts : List TsText) :
    ts.foldl (fun acc x => if tsLe x acc then x else acc) t ∈ t :: ts := by
  induction ts generalizing t with
  | nil => simp
  | cons x xs ih =>
      simp only [List.foldl_cons]
      rcases List.mem_cons.mp (ih (if tsLe x t then x else t)) with h1 | h1
      · by_cases hc : tsLe x t = true
        · rw [if_pos hc] at h1
          simp [hc, h1]
        · rw [if_neg hc] at h1
          simp [hc, h1]
      · exact List.mem_cons_of_mem _ (List.mem_cons_of_mem _ h1)

theorem tsFoldMax_mem (t : TsText) (ts : List TsText) :
    ts.foldl (fun acc x => if tsLe acc x then x else acc) t ∈ t :: ts := by
  induction ts generalizing t with
  | nil => simp
  | cons x xs ih =>
      simp only [List.foldl_cons]
      rcases List.mem_cons.mp (ih (if tsLe t x then x else t)) with h1 | h1
      · by_cases hc : tsLe t x = true
        · rw [if_pos hc] at h1
          simp [hc, h1]
        · rw [if_neg hc] at h1
          simp [hc, h1]
      · exact List.mem_cons_of_mem _ (List.mem_cons_of_mem _ h1)

/-! ## C7 -/

/-- Amended C7: `chatActivityStats` parses only the lexicographic MIN
and MAX of the stored timestamp texts of the user, and it propagates
(models the uncaught `ValueError` of `datetime.fromisoformat`, which
`except sqlite3.Error` does not catch) exactly when one of those two
parsed extremes is malformed.  Consequently: with every stored
timestamp well-formed — in particular with no rows at all, where the
result is also what a caught sqlite error yields — it returns a plain
result; and whenever it does propagate, some stored timestamp of the
user is malformed.  (A malformed string sorting strictly between
well-formed extremes is never parsed and does not surface; see
`stats_ok_with_interior_malformed`.) -/
theorem C7_amended_stats_error_boundary (db : DB) (uid : Int) :
    ((∀ ts ∈ (db.chat_history.filter (fun r => r.user_id == uid)).map
        (fun r => r.timestamp), isMalformedTs ts = false) →
      (get_user_stats db uid).isOk = true) ∧
    (get_user_stats db uid = Except.error () →
      ∃ ts ∈ (db.chat_history.filter (fun r => r.user_id == uid)).map
        (fun r => r.timestamp), isMalformedTs ts = true) ∧
    ((get_user_stats db uid = Except.error ()) ↔
      ((∃ m, minTs ((db.chat_history.filter (fun r => r.user_id == uid)).map
            (fun r => r.timestamp)) = some m ∧ isMalformedTs m = true) ∨
       (∃ M, maxTs ((db.chat_history.filter (fun r => r.user_id == uid)).map
            (fun r => r.timestamp)) = some M ∧ isMalformedTs M = true))) := by
  simp only [get_user_stats]
  generalize (db.chat_history.filter (fun r => r.user_id == uid)).map
    (fun r => r.timestamp) = l
  cases l with
  | nil => simp [minTs, maxTs, Except.isOk, Except.toBool]
  | cons t ts =>
      simp only [minTs, maxTs]
      cases hmin : ts.foldl (fun acc x => if tsLe x acc then x else acc) t with
      | malformed k =>
          simp only [fromisoformat]
          refine ⟨?_, ?_, ?_⟩
          · intro hall
            have hm := tsFoldMin_mem t ts
            rw [hmin] at hm
            have := hall _ hm
            simp [isMalformedTs] at this
          · intro _
            have hm := tsFoldMin_mem t ts
            rw [hmin] at hm
            exact ⟨TsText.malformed k, hm, rfl⟩
          · exact ⟨fun _ => Or.inl ⟨TsText.malformed k, rfl, rfl⟩, fun _ => trivial⟩
      | iso a =>
          cases hmax : ts.foldl (fun acc x => if tsLe acc x then x else acc) t with
          | malformed k =>
              simp only [fromisoformat]
              refine ⟨?_, ?_, ?_⟩
              · intro hall
                have hm := tsFoldMax_mem t ts
                rw [hmax] at hm
                have := hall _ hm
                simp [isMalformedTs] at this
              · intro _
                have hm := tsFoldMax_mem t ts
                rw [hmax] at hm
                exact ⟨TsText.malformed k, hm, rfl⟩
              · exact ⟨fun _ => Or.inr ⟨TsText.malformed k, rfl, rfl⟩, fun _ => trivial⟩
          | iso b =>
              simp only [fromisoformat]
              refine ⟨?_, ?_, ?_⟩
              · intro _
                rfl
              · intro h
                exact absurd h (by simp)
              · constructor
                · intro h
                  exact absurd h (by simp)
                · intro h
                  obtain ⟨m, hm, hmal⟩ | ⟨M, hM, hmal⟩ := h
                  · injection hm with hm2
                    rw [← hm2] at hmal
                    simp [isMalformedTs] at hmal
                  · injection hM with hM2
                    rw [← hM2] at hmal
                    simp [isMalformedTs] at hmal

/-- Witness for C7 (amended): on a store whose only timestamp is the
well-formed write-time stamp, the stats call returns a plain result. -/
theorem C7_witness :
    (get_user_stats (save_chat DB.init 3 "m" "r") 3).isOk = true :=
  (C7_amended_stats_error_boundary (save_chat DB.init 3 "m" "r") 3).1 (by decide)

/-- Counterexample to C7 as stated: a store holding one chat row for
user 7 whose timestamp TEXT is malformed.  `chatActivityStats` does not
catch this failure and return a zeroed result — it propagates (the
`ValueError` of `fromisoformat` is not a `sqlite3.Error`). -/
theorem C7_counterexample :
    get_user_stats
        { users := [], chat_history := [⟨1, 7, "hey", "yo", TsText.malformed 0⟩],
          moods := [], next_chat_id := 2, next_mood_id := 1, clock := 0 } 7 =
      Except.error () ∧
    (get_user_stats
        { users := [], chat_history := [⟨1, 7, "hey", "yo", TsText.malformed 0⟩],
          moods := [], next_chat_id := 2, next_mood_id := 1, clock := 0 } 7).isOk =
      false := by
  constructor <;> rfl

/-- Model sanity check mirroring lexicographic `MIN`/`MAX`: a malformed
timestamp whose bytes sort strictly between the well-formed extremes
(rank 30, between the stamps of instants 10 and 20 at ranks 21 and 41)
is never parsed — `MIN` and `MAX` are the well-formed extremes — so the
stats call succeeds even though the store holds a malformed row. -/
theorem stats_ok_with_interior_malformed :
    (get_user_stats
        { users := [],
          chat_history := [⟨1, 7, "a", "b", TsText.iso 10⟩,
            ⟨2, 7, "c", "d", TsText.malformed 30⟩,
            ⟨3, 7, "e", "f", TsText.iso 20⟩],
          moods := [], next_chat_id := 4, next_mood_id := 1, clock := 0 } 7).isOk =
      true := by
  rfl

/-! ## C2 -/

/-- C2: `chatActivityStats` — with no turns it returns (0, 0, 0.0); a
single turn gives (1, 1, 1.0); four messages whose timestamps span
exactly two calendar days (earliest and latest 86400 time units apart,
e.g. noon on day one to noon on day two) give (4, 2, 2.0):
daysActive is the whole-day span between earliest and latest timestamp
inclusive, floored to at least 1 once any turn exists, and averagePerDay
is totalMessages / daysActive. -/
theorem C2_activity_stats (db : DB) (uid : Int)
    (m1 r1 m2 r2 m3 r3 m4 r4 : String) (t : Nat)
    (hEmpty : db.chat_history.filter (fun r => r.user_id == uid) = []) :
    get_user_stats db uid = Except.ok (0, 0, 0) ∧
    get_user_stats (save_chat db uid m1 r1) uid = Except.ok (1, 1, 1) ∧
    get_user_stats
        (save_chat (setClock (save_chat (setClock (save_chat (setClock
          (save_chat (setClock db t) uid m1 r1) (t + 3600)) uid m2 r2)
            (t + 7200)) uid m3 r3) (t + 86400)) uid m4 r4) uid =
      Except.ok (4, 2, 2) := by
  have hminstep : ∀ (a b : Nat), ¬ b ≤ a →
      (if tsLe (TsText.iso b) (TsText.iso a) then TsText.iso b else TsText.iso a) =
        TsText.iso a := by
    intro a b h
    have hk : tsLe (TsText.iso b) (TsText.iso a) = false := by
      simp only [tsLe, tsKey, decide_eq_false_iff_not]
      omega
    simp [hk]
  have hmaxstep : ∀ (a b : Nat), a ≤ b →
      (if tsLe (TsText.iso a) (TsText.iso b) then TsText.iso b else TsText.iso a) =
        TsText.iso b := by
    intro a b h
    have hk : tsLe (TsText.iso a) (TsText.iso b) = true := by
      simp only [tsLe, tsKey, decide_eq_true_eq]
      omega
    simp [hk]
  refine ⟨?_, ?_, ?_⟩
  · simp [get_user_stats, hEmpty, minTs, maxTs]
  · have h1row : (save_chat db uid m1 r1).chat_history.filter
        (fun r => r.user_id == uid) =
        [{ id := db.next_chat_id, user_id := uid, message := m1, response := r1,
           timestamp := TsText.iso db.clock }] := by
      simp [save_chat, List.filter_append, hEmpty]
    simp only [get_user_stats, h1row, List.map_cons, List.map_nil, List.length_cons,
      List.length_nil, minTs, maxTs, List.foldl_nil, fromisoformat]
    norm_num
  · have h4row : (save_chat (setClock (save_chat (setClock (save_chat (setClock
        (save_chat (setClock db t) uid m1 r1) (t + 3600)) uid m2 r2)
          (t + 7200)) uid m3 r3) (t + 86400)) uid m4 r4).chat_history.filter
        (fun r => r.user_id == uid) =
        [{ id := db.next_chat_id, user_id := uid, message := m1, response := r1,
           timestamp := TsText.iso t },
         { id := db.next_chat_id + 1, user_id := uid, message := m2, response := r2,
           timestamp := TsText.iso (t + 3600) },
         { id := db.next_chat_id + 2, user_id := uid, message := m3, response := r3,
           timestamp := TsText.iso (t + 7200) },
         { id := db.next_chat_id + 3, user_id := uid, message := m4, response := r4,
           timestamp := TsText.iso (t + 86400) }] := by
      simp [save_chat, setClock, List.filter_append, hEmpty]
    have hmin : minTs [TsText.iso t, TsText.iso (t + 3600), TsText.iso (t + 7200),
        TsText.iso (t + 86400)] = some (TsText.iso t) := by
      simp only [minTs, List.foldl_cons, List.foldl_nil]
      rw [hminstep t (t + 3600) (by omega), hminstep t (t + 7200) (by omega),
        hminstep t (t + 86400) (by omega)]
    have hmax : maxTs [TsText.iso t, TsText.iso (t + 3600), TsText.iso (t + 7200),
        TsText.iso (t + 86400)] = some (TsText.iso (t + 86400)) := by
      simp only [maxTs, List.foldl_cons, List.foldl_nil]
      rw [hmaxstep t (t + 3600) (by omega), hmaxstep (t + 3600) (t + 7200) (by omega),
        hmaxstep (t + 7200) (t + 86400) (by omega)]
    simp only [get_user_stats, h4row, List.map_cons, List.map_nil, List.length_cons,
      List.length_nil]
    rw [hmin, hmax]
    simp only [fromisoformat]
    have hdiff : ((t + 86400 : Nat) : Int) - (t : Int) = 86400 := by
      push_cast
      ring
    rw [hdiff]
    norm_num [Int.fdiv]

/-- Witness for C2 on a fresh database: user 1, four messages at times
0, 3600, 7200 and 86400. -/
theorem C2_witness :
    get_user_stats DB.init 1 = Except.ok (0, 0, 0) ∧
    get_user_stats (save_chat DB.init 1 "a" "b") 1 = Except.ok (1, 1, 1) ∧
    get_user_stats
        (save_chat (setClock (save_chat (setClock (save_chat (setClock
          (save_chat (setClock DB.init 0) 1 "a" "b") (0 + 3600)) 1 "c" "d")
            (0 + 7200)) 1 "e" "f") (0 + 86400)) 1 "g" "h") 1 =
      Except.ok (4, 2, 2) :=
  C2_activity_stats DB.init 1 "a" "b" "c" "d" "e" "f" "g" "h" 0 rfl

/-! ## C6 -/

theorem lookup_map_pair {β : Type} (ks : List String) (f : String → β) (x : String) :
    (ks.map (fun m => (m, f m))).lookup x = if x ∈ ks then some (f x) else none := by
  induction ks with
  | nil => simp [List.lookup]
  | cons k kt ih =>
      simp only [List.map_cons, List.lookup]
      by_cases hx : x = k
      · subst hx
        simp
      · have hbeq : (x == k) = false := beq_false_of_ne hx
        simp [hbeq, ih, hx]

/-- C6: `moodStats` groups mood entries by the exact label string — a
label appears in the frequency table exactly when the user recorded it,
with its exact number of occurrences (String equality is byte-exact, so
"Happy" and "happy" are counted separately) — and the recent entries are
the last five mood rows in insertion order, reversed to oldest first. -/
theorem C6_mood_stats (db : DB) (uid : Int) (hInv : DBInv db) :
    (∀ l : String,
      ((get_mood_stats db uid).1.lookup l) =
        (if 0 < ((db.moods.filter (fun r => r.user_id == uid)).map
              (fun r => r.mood)).count l
         then some (((db.moods.filter (fun r => r.user_id == uid)).map
              (fun r => r.mood)).count l)
         else none)) ∧
    (get_mood_stats db uid).2 =
      (((db.moods.filter (fun r => r.user_id == uid)).map
          (fun r => (r.mood, r.timestamp))).reverse.take 5).reverse := by
  constructor
  · intro l
    simp only [get_mood_stats]
    rw [lookup_map_pair]
    by_cases hmem : l ∈ ((db.moods.filter (fun r => r.user_id == uid)).map
        (fun r => r.mood)).dedup
    · rw [if_pos hmem, if_pos]
      exact List.count_pos_iff.mpr (List.mem_dedup.mp hmem)
    · rw [if_neg hmem, if_neg]
      intro hpos
      exact hmem (List.mem_dedup.mpr (List.count_pos_iff.mp hpos))
  · simp only [get_mood_stats]
    rw [sortByIdDesc_pairwise (fun r => r.id)
      (db.moods.filter (fun r => r.user_id == uid))
      (List.Pairwise.sublist (List.filter_sublist _) hInv.2.2.1)]
    simp [List.map_take, List.map_reverse]

/-- Witness for C6: recording "Happy" then "happy" for user 1 yields
two distinct frequency entries, each with count 1. -/
theorem C6_witness :
    (get_mood_stats (save_mood (save_mood DB.init 1 "Happy") 1 "happy") 1).1.lookup
        "Happy" = some 1 ∧
    (get_mood_stats (save_mood (save_mood DB.init 1 "Happy") 1 "happy") 1).1.lookup
        "happy" = some 1 := by
  have h := (C6_mood_stats (save_mood (save_mood DB.init 1 "Happy") 1 "happy") 1
    (save_mood_inv _ _ _ (save_mood_inv _ _ _ DBInv_init))).1
  constructor
  · rw [h "Happy"]
    rfl
  · rw [h "happy"]
    rfl

/-! ## Registry lemmas -/

theorem getD_append_length {α : Type} (l : List α) (v d : α) :
    (l ++ [v]).getD l.length d = v := by
  induction l with
  | nil => rfl
  | cons a t ih =>
      simp only [List.cons_append, List.length_cons, List.getD_cons_succ]
      exact ih

theorem set_append_length {α : Type} (l : List α) (x v : α) :
    (l ++ [x]).set l.length v = l ++ [v] := by
  induction l with
  | nil => rfl
  | cons a t ih =>
      simp only [List.cons_append, List.length_cons, List.set_cons_succ]
      exact congrArg (a :: ·) ih

theorem getD_set_self {α : Type} (l : List α) (n : Nat) (v d : α) (h : n < l.length) :
    (l.set n v).getD n d = v := by
  induction l generalizing n with
  | nil => simp at h
  | cons a t ih =>
      cases n with
      | zero => rfl
      | succ k =>
          simp only [List.set_cons_succ, List.getD_cons_succ]
          exact ih k (by simpa using h)

theorem lookup_mem_pairs {β : Type} (l : List (Int × β)) (k : Int) (v : β)
    (h : List.lookup k l = some v) : (k, v) ∈ l := by
  induction l with
  | nil => simp [List.lookup] at h
  | cons p t ih =>
      obtain ⟨q, b⟩ := p
      simp only [List.lookup] at h
      cases hbeq : (k == q) with
      | true =>
          rw [hbeq] at h
          simp only [Option.some.injEq] at h
          exact (by rw [eq_of_beq hbeq, h]; exact List.mem_cons_self _ _)
      | false =>
          rw [hbeq] at h
          exact List.mem_cons_of_mem _ (ih h)

/-- A `get_user_history` call does not change the context a user id
resolves to: an existing entry is returned as is; a fresh entry is an
empty history. -/
theorem gh_contextOf (r : Registry) (uid : Int) :
    contextOf (get_user_history r uid).1 uid = contextOf r uid := by
  unfold get_user_history contextOf
  cases hl : List.lookup uid r.table with
  | some addr => simp [hl]
  | none => simp [hl, List.lookup, readHist, getD_append_length]

/-- The object reference returned by `get_user_history` dereferences to
the current context of that user. -/
theorem gh_readHist (r : Registry) (uid : Int) :
    readHist (get_user_history r uid).1 (get_user_history r uid).2 =
      contextOf r uid := by
  unfold get_user_history contextOf
  cases hl : List.lookup uid r.table with
  | some addr => simp [hl]
  | none => simp [hl, readHist, getD_append_length]

/-- Appending a turn through the reference returned by
`get_user_history` extends the context any later lookup of the same user
observes. -/
theorem gh_append_contextOf (r : Registry) (uid : Int) (p : String × String)
    (hInv : RegInv r) :
    contextOf (appendHist (get_user_history r uid).1 (get_user_history r uid).2 p)
        uid = contextOf r uid ++ [p] := by
  unfold get_user_history contextOf appendHist
  cases hl : List.lookup uid r.table with
  | some addr =>
      have haddr : addr < r.heap.length := hInv (uid, addr) (lookup_mem_pairs _ _ _ hl)
      simp only [hl, readHist]
      rw [getD_set_self _ _ _ _ haddr]
  | none =>
      simp only [hl, List.lookup, beq_self_eq_true, readHist]
      rw [getD_append_length, set_append_length, getD_append_length]

/-! ## C4 -/

/-- C4: for a user id with no registry entry, `get_user_history`
creates an empty context, stores it, and returns it; an immediately
repeated call is a pure no-op returning the very same reference; and a
turn appended through the returned reference is visible through any
later lookup of that user.  The operation is a total function — it never
fails. -/
theorem C4_session_registry (r : Registry) (uid : Int) (turn : String × String)
    (h : List.lookup uid r.table = none) :
    get_user_history (get_user_history r uid).1 uid =
      ((get_user_history r uid).1, (get_user_history r uid).2) ∧
    readHist (get_user_history r uid).1 (get_user_history r uid).2 = [] ∧
    readHist (appendHist (get_user_history r uid).1 (get_user_history r uid).2 turn)
      (get_user_history r uid).2 = [turn] ∧
    contextOf (appendHist (get_user_history r uid).1 (get_user_history r uid).2 turn)
      uid = [turn] := by
  refine ⟨?_, ?_, ?_, ?_⟩
  · unfold get_user_history
    simp [h, List.lookup]
  · rw [gh_readHist r uid]
    unfold contextOf
    simp [h]
  · unfold get_user_history appendHist readHist
    simp [h, getD_append_length, set_append_length]
  · unfold get_user_history appendHist contextOf readHist
    simp [h, List.lookup, getD_append_length, set_append_length]

/-- Witness for C4: a fresh registry and user 5. -/
theorem C4_witness :
    get_user_history (get_user_history emptyRegistry 5).1 5 =
      ((get_user_history emptyRegistry 5).1, (get_user_history emptyRegistry 5).2) ∧
    readHist (get_user_history emptyRegistry 5).1
      (get_user_history emptyRegistry 5).2 = [] ∧
    readHist
      (appendHist (get_user_history emptyRegistry 5).1
        (get_user_history emptyRegistry 5).2 ("hello", "reply"))
      (get_user_history emptyRegistry 5).2 = [("hello", "reply")] ∧
    contextOf
      (appendHist (get_user_history emptyRegistry 5).1
        (get_user_history emptyRegistry 5).2 ("hello", "reply")) 5 =
      [("hello", "reply")] :=
  C4_session_registry emptyRegistry 5 ("hello", "reply") rfl

/-! ## C1 -/

theorem FALLBACK_ne_empty : FALLBACK ≠ "" := by decide

/-- Amended C1: `handle_message` is total and never re-raises — for
every input it returns a reply and appends exactly one (input, reply)
row to durable storage, the reply row carrying the write-time clock.  On
a successful generation the reply is the generated text, and the
generation wrapper has appended the (input, reply) pair to the
in-memory context of the user; when generation raises, the reply is the fixed
non-empty fallback apology, the (input, fallback) pair is still written
to durable storage, but the in-memory context is left unchanged — the
fallback pair is NOT appended to it. -/
theorem C1_amended_handle_message (st : AppState) (u : UserRow) (text : String)
    (gen : Except Unit String) (hreg : RegInv st.reg) :
    (handle_message st u text gen).1.db.chat_history =
      st.db.chat_history ++
        [{ id := st.db.next_chat_id, user_id := u.user_id, message := text,
           response := (handle_message st u text gen).2,
           timestamp := TsText.iso st.db.clock }] ∧
    (gen = Except.error () →
      (handle_message st u text gen).2 = FALLBACK ∧ FALLBACK ≠ "" ∧
      contextOf (handle_message st u text gen).1.reg u.user_id =
        contextOf st.reg u.user_id) ∧
    (∀ c, gen = Except.ok c →
      (handle_message st u text gen).2 = c ∧
      contextOf (handle_message st u text gen).1.reg u.user_id =
        contextOf st.reg u.user_id ++ [(text, c)]) := by
  cases gen with
  | error e =>
      refine ⟨?_, ?_, ?_⟩
      · simp [handle_message, save_chat, save_user_chat_history,
          save_user_next_chat_id, save_user_clock]
      · intro _
        refine ⟨rfl, FALLBACK_ne_empty, ?_⟩
        simpa [handle_message] using gh_contextOf st.reg u.user_id
      · intro c hc
        exact absurd hc (by simp)
  | ok c' =>
      refine ⟨?_, ?_, ?_⟩
      · simp [handle_message, save_chat, save_user_chat_history,
          save_user_next_chat_id, save_user_clock]
      · intro hc
        exact absurd hc (by simp)
      · intro c hc
        cases hc
        refine ⟨rfl, ?_⟩
        simpa [handle_message] using
          gh_append_contextOf st.reg u.user_id (text, c') hreg

/-- Witness for C1 (amended): a failing generation call on a fresh
state — the fallback is returned, the row is written, and the context
stays as it was. -/
theorem C1_witness :
    (handle_message { db := DB.init, reg := emptyRegistry }
        ⟨1, none, none, none⟩ "hi" (Except.error ())).2 = FALLBACK ∧
    FALLBACK ≠ "" ∧
    contextOf (handle_message { db := DB.init, reg := emptyRegistry }
        ⟨1, none, none, none⟩ "hi" (Except.error ())).1.reg 1 =
      contextOf emptyRegistry 1 :=
  (C1_amended_handle_message { db := DB.init, reg := emptyRegistry }
    ⟨1, none, none, none⟩ "hi" (Except.error ())
    (by intro p hp; simp [emptyRegistry] at hp)).2.1 rfl

/-- Counterexample to C1 as stated: when the generation call raises, the
(input, fallback) pair is written to durable storage and the fallback is
returned, but the in-memory conversation context of the user receives no
pair at all — it is the freshly created empty history, not a one-element
one. -/
theorem C1_counterexample :
    (handle_message { db := DB.init, reg := emptyRegistry }
        ⟨1, none, none, none⟩ "hi" (Except.error ())).2 = FALLBACK ∧
    ((handle_message { db := DB.init, reg := emptyRegistry }
        ⟨1, none, none, none⟩ "hi" (Except.error ())).1.db.chat_history.map
      (fun row => (row.user_id, row.message, row.response))) =
        [(1, "hi", FALLBACK)] ∧
    contextOf (handle_message { db := DB.init, reg := emptyRegistry }
        ⟨1, none, none, none⟩ "hi" (Except.error ())).1.reg 1 = [] ∧
    (contextOf (handle_message { db := DB.init, reg := emptyRegistry }
        ⟨1, none, none, none⟩ "hi" (Except.error ())).1.reg 1).length = 0 := by
  refine ⟨rfl, rfl, rfl, rfl⟩
